import Mathlib

/-!
Shallow embedding of the mapcreator boundary-layer pipeline.

Each namespace embeds one module of the repository:

* `Poland` — `src/map_builder/processors/poland.py` (`apply_poland_replacement`).
* `Cull` — `src/map_builder/geo/utils.py` (`smart_island_cull`) together with the
  `VIP_POINTS` whitelist from `src/map_builder/config.py`.
* `Hier` — `src/tools/generate_hierarchy.py` (`build_admin2_groups`, `slugify`).
* `Final` — the terminal country-code resolution pass of `src/init_map_data.py`
  (`main`, lines 1196-1250) and `extract_country_code` from
  `src/map_builder/processors/admin1.py`.
* `Topo` — `src/map_builder/geo/topology.py` (`build_topology` layer validation).
* `RuUa` — `src/map_builder/processors/russia_ukraine.py`
  (`apply_russia_ukraine_replacement`) with `URAL_LONGITUDE` from config.
* `Clip` — `src/map_builder/geo/utils.py` (`clip_to_europe_bounds`) and the
  attribute table of `src/map_builder/config.py`.

Geometry operations (reprojection, representative points, polygon containment,
clipping, union, simplification) are capabilities of an external geometry
engine; they enter the model as per-feature data (areas, longitudes) or as
oracle functions, exactly at the points where the source calls the engine.
Machine floats of the source are modelled as rationals.
-/

namespace Str

/-!
Python string methods used by the pipeline, modelled over ASCII data as
structurally recursive functions on character lists (the builtin `String`
bodies do not matter for any claim; these mirror `str.strip`, `str.upper`,
`str.split`, slicing and the `in` test on the data the pipeline handles).
-/

/-- The whitespace class of `str.strip()`. -/
def isWs (c : Char) : Bool :=
  c == ' ' || c == '\t' || c == '\n' || c == '\r' || c == '\x0b' || c == '\x0c'

/-- Strip whitespace from both ends of a character list. -/
def trimChars (l : List Char) : List Char :=
  ((l.dropWhile isWs).reverse.dropWhile isWs).reverse

/-- Models `str.strip()`. -/
def strTrim (s : String) : String :=
  String.mk (trimChars s.toList)

/-- Models `str.upper()` on ASCII data. -/
def upper (s : String) : String :=
  String.mk (s.toList.map Char.toUpper)

/-- Models `"_" in s`. -/
def containsUnd (s : String) : Bool :=
  s.toList.any (fun c => c == '_')

/-- Accumulator loop of `s.split("_")`. -/
def splitUndAux : List Char → List Char → List String
  | [], acc => [String.mk acc.reverse]
  | c :: rest, acc =>
    if c == '_' then String.mk acc.reverse :: splitUndAux rest []
    else splitUndAux rest (c :: acc)

/-- Models `s.split("_")`. -/
def splitUnd (s : String) : List String :=
  splitUndAux s.toList []

/-- Models `s[:2]`. -/
def take2 (s : String) : String :=
  String.mk (s.toList.take 2)

end Str

namespace Poland

/-- One feature of the political base layer: the schema subset
`id, name, cntr_code` that `apply_poland_replacement` inspects.  `cntr` is
`none` when the cell is NaN.  Geometry of base features is never inspected by
the merge, so it is not carried. -/
structure Feature where
  id : String
  name : String
  cntr : Option String
deriving DecidableEq, Repr

/-- One raw row of the fetched powiaty dataset: `terc` and `name` columns plus
the geometry facts the function branches on (post-`make_valid` state):
emptiness, presence (notna) and validity flags, and the EPSG:4326 area in
square degrees used by the oversized-artifact filter. -/
structure PlRow where
  terc : String
  pname : String
  geomEmpty : Bool
  geomPresent : Bool
  geomValid : Bool
  areaDeg2 : ℚ
deriving DecidableEq, Repr

/-- The fetched powiaty dataset together with its column schema: the source
raises `ValueError` when `terc` or `name` is absent. -/
structure PlDataset where
  hasTerc : Bool
  hasName : Bool
  rows : List PlRow
deriving DecidableEq, Repr

/-- Models `str(x).upper()` of a cell that may be NaN: pandas renders NaN as the
string `nan`, which uppercases to `NAN`. -/
def optUpper (c : Option String) : String :=
  Str.upper
    (match c with
     | none => "nan"
     | some s => s)

/-- The retained base slice: `main_gdf[main_gdf["cntr_code"].astype(str).str.upper() != "PL"]`. -/
def polandBase (main : List Feature) : List Feature :=
  main.filter (fun f => !(optUpper f.cntr == "PL"))

/-- The geometry scrub of the powiaty rows, lines 50-52 of the source:
drop empty, missing and invalid geometries. -/
def polandScrub (rows : List PlRow) : List PlRow :=
  ((rows.filter (fun r => !r.geomEmpty)).filter (fun r => r.geomPresent)).filter
    (fun r => r.geomValid)

/-- The normalized replacement features: after the scrub, rows get
`id = "PL_POW_" + terc`, `cntr_code = "PL"`, the `< 2.0` square-degree area
filter, and the four-column projection.  (The trailing `simplify` call is a
geometry-engine operation that leaves attributes unchanged.) -/
def polandProcessed (ds : PlDataset) : List Feature :=
  ((polandScrub ds.rows).filter (fun r => r.areaDeg2 < 2)).map
    (fun r => { id := "PL_POW_" ++ r.terc, name := r.pname, cntr := some "PL" })

/-- Models `apply_poland_replacement` from `src/map_builder/processors/poland.py`.
The fetch of the powiaty dataset is an external collaborator, so the fetched
dataset is a parameter.  Error results model `SystemExit` / `ValueError`. -/
def apply_poland_replacement (main : List Feature) (ds : PlDataset) :
    Except String (List Feature) :=
  if main.isEmpty then .ok main
  else
    if ds.rows.isEmpty then .error "Powiaty GeoDataFrame is empty."
    else
      if !(ds.hasTerc && ds.hasName) then
        .error "Poland counties dataset missing expected columns: terc/name."
      else
        .ok (polandBase main ++ polandProcessed ds)

end Poland

namespace Cull

/-- One single-polygon part of an exploded feature.  `area_km2` is the
equal-area (EPSG:3035) area the source computes for each part; `hitsPt` is the
point-intersection predicate of the geometry engine restricted to this part. -/
structure Part where
  area_km2 : ℚ
  hitsPt : ℚ × ℚ → Bool

/-- One row of the layer handed to `smart_island_cull`: the value of the group
column, a representative carried attribute (`rname`, standing for the other
non-geometry columns that `dissolve` aggregates with `first`), and the
multi-polygon geometry as its list of parts. -/
structure Row where
  groupVal : String
  rname : String
  parts : List Part

/-- Models `VIP_POINTS` from `src/map_builder/config.py`. -/
def VIP_POINTS : List (String × (ℚ × ℚ)) :=
  [("Malta", (14.3754, 35.9375)),
   ("Isle of Wight", (-1.3047, 50.6938)),
   ("Ibiza", (1.4206, 38.9067)),
   ("Menorca", (4.1105, 39.9496)),
   ("Rugen", (13.3915, 54.4174)),
   ("Bornholm", (14.9141, 55.127)),
   ("Jersey", (-2.1312, 49.2144)),
   ("Aland Islands", (19.9156, 60.1785))]

/-- Models `any(geom.intersects(pt) for pt in vip_points)` for one exploded part. -/
def vipKeep (p : Part) : Bool :=
  VIP_POINTS.any (fun v => p.hitsPt v.2)

/-- Models `gdf.explode(index_parts=False, ignore_index=True)`: every part carries the
attributes of its parent row. -/
def explodedPairs (rows : List Row) : List (Row × Part) :=
  rows.flatMap (fun r => r.parts.map (fun p => (r, p)))

/-- The `area_km2` values of the exploded parts sharing one group value. -/
def groupAreas (ex : List (Row × Part)) (g : String) : List ℚ :=
  (ex.filter (fun rp => rp.1.groupVal == g)).map (fun rp => rp.2.area_km2)

/-- Maximum of a list of areas, `none` on the empty list (mirrors the pandas
groupby `max`). -/
def listMax : List ℚ → Option ℚ
  | [] => none
  | a :: as => some (as.foldl max a)

/-- Models `groupby(group_col)["area_km2"].transform("max") == area_km2`, or `False`
everywhere when the group column is absent. -/
def largestKeep (hasG : Bool) (ex : List (Row × Part)) (rp : Row × Part) : Bool :=
  hasG && (listMax (groupAreas ex rp.1.groupVal) == some rp.2.area_km2)

/-- The keep predicate of line 111-115:
`largest_keep | vip_keep | (area_km2 >= threshold_km2)`. -/
def keepPred (hasG : Bool) (ex : List (Row × Part)) (t : ℚ) (rp : Row × Part) : Bool :=
  largestKeep hasG ex rp || vipKeep rp.2 || (t ≤ rp.2.area_km2)

/-- The surviving exploded parts (`exploded.loc[exploded["keep"]]`). -/
def cullFiltered (hasG : Bool) (rows : List Row) (t : ℚ) : List (Row × Part) :=
  let ex := explodedPairs rows
  ex.filter (keepPred hasG ex t)

/-- Models `filtered.dissolve(by=group_col, aggfunc="first")`: one output row per
group value occurring among the survivors; its geometry is the union of the
surviving parts of that group (modelled as the list of those parts), other
attributes take the value of the first surviving row.  pandas sorts group keys;
the model keeps them in order of occurrence, which no stated property
distinguishes. -/
def dissolveGroups (flt : List (Row × Part)) : List Row :=
  ((flt.map (fun rp => rp.1.groupVal)).dedup).map (fun g =>
    let grp := flt.filter (fun rp => rp.1.groupVal == g)
    { groupVal := g,
      rname := (match grp.head? with
                | some rp => rp.1.rname
                | none => ""),
      parts := grp.map (fun rp => rp.2) })

/-- Models `smart_island_cull` from `src/map_builder/geo/utils.py`.  `hasG` records
whether `group_col` is one of the columns of the layer (line 103).  The equal-area
reprojection and the VIP intersection tests are geometry-engine calls whose
results are the `area_km2` and `hitsPt` data of the parts. -/
def smart_island_cull (hasG : Bool) (rows : List Row) (t : ℚ) : List Row :=
  if rows.isEmpty then rows
  else
    let ex := explodedPairs rows
    if ex.isEmpty then rows
    else
      let flt := cullFiltered hasG rows t
      if flt.isEmpty then rows
      else
        if hasG then dissolveGroups flt
        else flt.map (fun rp => { rp.1 with parts := [rp.2] })

end Cull

namespace Hier

/-- One child feature: its `shapeID` and the representative interior point
computed by `centroid_points` (a geometry-engine operation). -/
structure Child where
  shapeID : String
  cpt : ℚ × ℚ
deriving DecidableEq, Repr

/-- One parent admin-1 region: its name column value and the point-in-polygon
predicate of the geometry engine for its polygon. -/
structure Parent where
  pname : String
  containsPt : ℚ × ℚ → Bool

/-- Models `c.isalpha() or c.isdigit()` over the ASCII classes `[A-Za-z0-9]` of the
slug regex. -/
def isAlnum (c : Char) : Bool :=
  c.isAlpha || c.isDigit

/-- Models `re.sub(r"[^A-Za-z0-9]+", "_", text)`: alphanumerics kept, each maximal
run of other characters collapsed to one underscore. -/
def slugCore : List Char → Bool → List Char
  | [], _ => []
  | c :: rest, prevU =>
    if isAlnum c then c :: slugCore rest false
    else if prevU then slugCore rest true
    else '_' :: slugCore rest true

/-- Drop leading underscores. -/
def dropUnd (l : List Char) : List Char :=
  l.dropWhile (fun c => c == '_')

/-- Models `slugify` from `src/tools/generate_hierarchy.py`: strip, collapse
non-alphanumeric runs to `_`, strip `_` from both ends. -/
def slugify (s : String) : String :=
  let cleaned := slugCore (Str.trimChars s.toList) false
  String.mk ((dropUnd ((dropUnd cleaned).reverse)).reverse)

/-- The joined rows one child contributes to
`gpd.sjoin(centroids, adm1_country, how="left", predicate="within")` after the
`sjoin_nearest` fallback: one row per containing parent, in parent order; a
child inside no parent yields one row whose name comes from the
nearest-neighbour oracle (`none` when that fallback also fails, i.e. the
`except: pass` path). -/
def childJoin (parents : List Parent) (nearest : Child → Option String)
    (c : Child) : List (Child × Option String) :=
  let ms := parents.filter (fun pr => pr.containsPt c.cpt)
  if ms.isEmpty then [(c, nearest c)]
  else ms.map (fun pr => (c, some pr.pname))

/-- The full spatial join with fallback, child by child in layer order. -/
def joinedRows (children : List Child) (parents : List Parent)
    (nearest : Child → Option String) : List (Child × Option String) :=
  children.flatMap (childJoin parents nearest)

/-- Models `not region or str(region).strip() == ""`. -/
def isBlank (s : String) : Bool :=
  Str.strTrim s == ""

/-- Models `groups[group_id].append(child_id)` on a `defaultdict(list)` modelled as
an insertion-ordered association list. -/
def addToGroup : List (String × List String) → String → String →
    List (String × List String)
  | [], g, cid => [(g, [cid])]
  | (k, v) :: rest, g, cid =>
    if k == g then (k, v ++ [cid]) :: rest
    else (k, v) :: addToGroup rest g cid

/-- Models `if group_id not in labels: labels[group_id] = str(region)`. -/
def addLabel (ls : List (String × String)) (g lab : String) :
    List (String × String) :=
  if ls.any (fun kv => kv.1 == g) then ls else ls ++ [(g, lab)]

/-- The body of the `for _, row in joined.iterrows()` loop: skip missing or
blank region names, otherwise derive the group id from the slugified region
name and append the child id. -/
def groupStep (childPfx : String)
    (acc : List (String × List String) × List (String × String))
    (row : Child × Option String) :
    List (String × List String) × List (String × String) :=
  match row.2 with
  | none => acc
  | some region =>
    if isBlank region then acc
    else
      let gid := childPfx ++ "_" ++ slugify region
      let cid := childPfx ++ "_RAY_" ++ row.1.shapeID
      (addToGroup acc.1 gid cid, addLabel acc.2 gid region)

/-- The grouping loop of `build_admin2_groups` in
`src/tools/generate_hierarchy.py` (lines 311-355).  File loading, CRS
normalization and the iso filtering of the admin-1 layer are collaborator
steps; the function receives the child centroids, the iso-filtered parent
regions, the nearest-neighbour oracle and the country prefix. -/
def build_admin2_groups (children : List Child) (parents : List Parent)
    (nearest : Child → Option String) (childPfx : String) :
    List (String × List String) × List (String × String) :=
  (joinedRows children parents nearest).foldl (groupStep childPfx) ([], [])

/-- Total number of occurrences of one child id across all group lists. -/
def countChild (gs : List (String × List String)) (cid : String) : Nat :=
  (gs.map (fun kv => kv.2.count cid)).sum

/-- How many group-list entries one joined row contributes for a given child
id: one exactly when its region name is present and non-blank and its child id
is the one counted. -/
def rowCount (childPfx cid : String) (row : Child × Option String) : Nat :=
  match row.2 with
  | none => 0
  | some region =>
    if isBlank region then 0
    else if (childPfx ++ "_RAY_" ++ row.1.shapeID) == cid then 1 else 0

/-- Total contribution of a row list to the count of one child id. -/
def rowsCount (childPfx cid : String) (rows : List (Child × Option String)) : Nat :=
  (rows.map (rowCount childPfx cid)).sum

end Hier

namespace Final

/-- Models `len(part) == 2 and part.isalpha() and part.isupper()` for ASCII data:
exactly two characters, both in `A`-`Z`. -/
def validCode (p : String) : Bool :=
  p.toList.length == 2 && p.toList.all (fun c => c.isUpper)

/-- Models `extract_country_code` from `src/map_builder/processors/admin1.py`
(duplicated verbatim inside `main` of `src/init_map_data.py`): first matching
underscore-delimited token, else the two-character id prefix, else empty. -/
def extract_country_code (s : String) : String :=
  let byToken :=
    if Str.containsUnd s then (Str.splitUnd s).find? (fun p => validCode p)
    else none
  match byToken with
  | some p => p
  | none =>
    let pre2 := Str.take2 s
    if validCode pre2 then pre2 else ""

/-- A feature as seen by the finalization pass: id and current country code
(`none` for NaN). -/
structure Feat where
  fid : String
  cntr : Option String
deriving DecidableEq, Repr

/-- Models `fillna("")` composed with `astype(str)`. -/
def optStr : Option String → String
  | none => ""
  | some s => s

/-- Models `final_hybrid.loc[final_hybrid["cntr_code"] == "", "cntr_code"] = None`. -/
def blankToNone (s : String) : Option String :=
  if s == "" then none else some s

/-- The country-code finalization of one feature, following `main` of
`src/init_map_data.py` lines 1196-1250: strip and null out blanks; backfill
missing codes from the id; strip again; backfill still-missing codes with the
first non-sentinel value produced by the borders spatial join (`cands`, in
join order, is the output of that collaborator for this feature); finally strip,
uppercase and null out blanks. -/
def resolveCode (f : Feat) (cands : List String) : Option String :=
  let c1 := blankToNone (Str.strTrim (optStr f.cntr))
  let e :=
    match c1 with
    | some s => some s
    | none => some (extract_country_code f.fid)
  let c2 := blankToNone (Str.strTrim (optStr e))
  let c3 :=
    match c2 with
    | some s => some s
    | none => cands.find? (fun s => !(s == "-99" || s == ""))
  blankToNone (Str.upper (Str.strTrim (optStr c3)))

/-- The finalization pass over the whole layer; `oracle` is the borders
spatial-join collaborator. -/
def finalizeCodes (feats : List Feat) (oracle : Feat → List String) :
    List (Option String) :=
  feats.map (fun f => resolveCode f (oracle f))

end Final

namespace Topo

/-- A geometry cell of a topology input layer: its coordinates (already the
common geographic CRS) and the validity verdict of the engine. -/
structure TGeom where
  pts : List (ℚ × ℚ)
  gvalid : Bool

/-- A feature of a topology input layer; `geom` is `none` for a missing
geometry.  Attribute columns are only selected and blank-filled by
`prune_columns`, which no bounding-box fact depends on, so they are not
carried. -/
structure TFeat where
  geom : Option TGeom

/-- Models `gdf.geometry.is_empty` (a missing geometry never survives the preceding
`notna` filter, so its value here is immaterial). -/
def geomEmpty (f : TFeat) : Bool :=
  match f.geom with
  | none => true
  | some g => g.pts.isEmpty

/-- Models `gdf.geometry.is_valid`. -/
def geomValid (f : TFeat) : Bool :=
  match f.geom with
  | none => false
  | some g => g.gvalid

/-- Models `scrub_geometry`: drop missing, empty and invalid geometries. -/
def scrub_geometry (l : List TFeat) : List TFeat :=
  ((l.filter (fun f => f.geom.isSome)).filter (fun f => !geomEmpty f)).filter geomValid

/-- Python `round` at a given power-of-ten denominator: round half to even. -/
def roundHalfEven (x : ℚ) : ℤ :=
  let f : ℤ := Int.floor x
  let r : ℚ := x - f
  if r < 1/2 then f
  else if 1/2 < r then f + 1
  else if f % 2 = 0 then f else f + 1

/-- Models `round(x, 4)` of `round_geometries` (default precision 4). -/
def roundTo4 (x : ℚ) : ℚ :=
  (roundHalfEven (x * 10000) : ℚ) / 10000

/-- Models `round_geometries` from `src/map_builder/geo/utils.py`, coordinate part. -/
def round_geometries (l : List TFeat) : List TFeat :=
  l.map (fun f =>
    { geom := f.geom.map (fun g =>
        { g with pts := g.pts.map (fun q => (roundTo4 q.1, roundTo4 q.2)) }) })

/-- All coordinates of a layer. -/
def allPts (l : List TFeat) : List (ℚ × ℚ) :=
  l.flatMap (fun f =>
    match f.geom with
    | none => []
    | some g => g.pts)

/-- Models `has_valid_bounds`: non-empty layer whose total bounds are finite and
non-degenerate.  Over rational coordinates the finiteness test of the source
can only fail when there is no coordinate at all (NaN bounds). -/
def has_valid_bounds (l : List TFeat) : Bool :=
  if l.isEmpty then false
  else
    match allPts l with
    | [] => false
    | q :: qs =>
      let xs := (q :: qs).map Prod.fst
      let ys := (q :: qs).map Prod.snd
      let minx := xs.foldl min q.1
      let maxx := xs.foldl max q.1
      let miny := ys.foldl min q.2
      let maxy := ys.foldl max q.2
      (0 < maxx - minx) && (0 < maxy - miny)

/-- Per-layer preprocessing of `build_topology`: reprojection and column
pruning (attribute-only, not carried), geometry scrubbing, rounding. -/
def processLayer (l : List TFeat) : List TFeat :=
  round_geometries (scrub_geometry l)

/-- The candidate list of `build_topology`: `political` first, the optional
`special_zones`, then the background layers. -/
def candList (political ocean land urban physical rivers : List TFeat)
    (special_zones : Option (List TFeat)) : List (String × List TFeat) :=
  ("political", political) ::
    ((match special_zones with
      | some sz => [("special_zones", sz)]
      | none => []) ++
     [("ocean", ocean), ("land", land), ("urban", urban),
      ("physical", physical), ("rivers", rivers)])

/-- The layers a run of the validation loop keeps: every processed candidate
with a valid bounding box, in candidate order. -/
def keptLayers (cands : List (String × List TFeat)) : List (String × List TFeat) :=
  (cands.filter (fun nl => has_valid_bounds (processLayer nl.2))).map
    (fun nl => (nl.1, processLayer nl.2))

/-- The validation loop of `build_topology`: process each candidate; an
invalid political layer aborts (`SystemExit`), an invalid other layer is
skipped with a diagnostic. -/
def selectLayers : List (String × List TFeat) →
    Except String (List (String × List TFeat))
  | [] => .ok []
  | (n, l) :: rest =>
    let p := processLayer l
    if has_valid_bounds p then
      match selectLayers rest with
      | .ok r => .ok ((n, p) :: r)
      | .error e => .error e
    else
      if n == "political" then
        .error "Political layer is empty or invalid; cannot build topology."
      else selectLayers rest

/-- Models `build_topology` from `src/map_builder/geo/topology.py` up to the layer
assembly handed to the topology library.  The `tp.Topology` call, the
NaN-retry and the file write are collaborator steps downstream of the layer
selection this models; an `error` result means the build aborted before any
file was written. -/
def build_topology (political ocean land urban physical rivers : List TFeat)
    (special_zones : Option (List TFeat)) :
    Except String (List (String × List TFeat)) :=
  selectLayers (candList political ocean land urban physical rivers special_zones)

end Topo

namespace RuUa

/-- Models `URAL_LONGITUDE` from `src/map_builder/config.py`. -/
def URAL_LONGITUDE : ℚ := 60

/-- A feature of the merged political layer; `repLon` is the longitude of the
representative point computed by the geometry engine (`_rep_longitudes`). -/
structure RFeat where
  rid : String
  rname : String
  cntr : Option String
  repLon : ℚ
deriving DecidableEq, Repr

/-- One row of a geoBoundaries ADM2 dataset after the dateline clip:
`shapeID`, `shapeName` and the representative-point longitude. -/
structure Adm2Row where
  shapeID : String
  shapeName : String
  repLon : ℚ
deriving DecidableEq, Repr

/-- Models `str(x).upper()` of a possibly-NaN cell. -/
def optUpper (c : Option String) : String :=
  Str.upper
    (match c with
     | none => "nan"
     | some s => s)

/-- Models the base filter dropping rows whose uppercased country code is RU or UA. -/
def ruUaBase (main : List RFeat) : List RFeat :=
  main.filter (fun f => !(optUpper f.cntr == "RU" || optUpper f.cntr == "UA"))

/-- The Russian admin-1 slice kept at coarse resolution: representative-point
longitude at or east of the Ural meridian. -/
def ruEastKept (main : List RFeat) : List RFeat :=
  (main.filter (fun f => optUpper f.cntr == "RU")).filter
    (fun f => URAL_LONGITUDE ≤ f.repLon)

/-- The ADM2 replacement slice for western Russia: rows strictly west of the
Ural meridian, renamed to the `RU_RAY_` schema. -/
def ruWestAdm2 (rows : List Adm2Row) : List RFeat :=
  (rows.filter (fun r => r.repLon < URAL_LONGITUDE)).map
    (fun r => { rid := "RU_RAY_" ++ r.shapeID, rname := r.shapeName,
                cntr := some "RU", repLon := r.repLon })

/-- The full Ukrainian ADM2 replacement, renamed to the `UA_RAY_` schema. -/
def uaAdm2Feats (rows : List Adm2Row) : List RFeat :=
  rows.map (fun r => { rid := "UA_RAY_" ++ r.shapeID, rname := r.shapeName,
                       cntr := some "UA", repLon := r.repLon })

/-- Models `apply_russia_ukraine_replacement` from
`src/map_builder/processors/russia_ukraine.py`.  The fetches, the dateline
clip and the simplification are collaborator steps; the two ADM2 datasets
arrive as parameters in their post-clip state. -/
def apply_russia_ukraine_replacement (main : List RFeat)
    (ruRows uaRows : List Adm2Row) : Except String (List RFeat) :=
  if main.isEmpty then .ok main
  else
    if ruRows.isEmpty then .error "Russia ADM2 GeoDataFrame is empty."
    else
      if uaRows.isEmpty then .error "Ukraine ADM2 GeoDataFrame is empty."
      else
        .ok (ruUaBase main ++ ruEastKept main ++ ruWestAdm2 ruRows ++
             uaAdm2Feats uaRows)

end RuUa

namespace Clip

/-- A feature of a layer handed to `clip_to_europe_bounds`; the claims about
this function only need layer identity, so features are opaque ids. -/
structure CFeat where
  cid : String
deriving DecidableEq, Repr

/-- The bounding-box constants defined at module level in
`src/map_builder/config.py`: `EUROPE_BOUNDS` exists, `MAP_BOUNDS` does not. -/
def configBoundsAttr : String → Option (ℚ × ℚ × ℚ × ℚ)
  | "EUROPE_BOUNDS" => some (-25, 5, 180, 83)
  | _ => none

/-- Models `clip_to_europe_bounds` from `src/map_builder/geo/utils.py`.  `clipOp`
models `gpd.clip` after the CRS normalization (`none` = the call raised),
`makeValidOp` models the geometry repair (`none` = it raised).  The function
first reads `cfg.MAP_BOUNDS`, outside any `try` block; a missing attribute is
an uncaught `AttributeError`. -/
def clip_to_europe_bounds
    (clipOp : (ℚ × ℚ × ℚ × ℚ) → List CFeat → Option (List CFeat))
    (makeValidOp : List CFeat → Option (List CFeat))
    (gdf : List CFeat) : Except String (List CFeat) :=
  match configBoundsAttr "MAP_BOUNDS" with
  | none =>
    .error "AttributeError: module map_builder.config has no attribute MAP_BOUNDS"
  | some bounds =>
    match clipOp bounds gdf with
    | some clipped => .ok (if clipped.isEmpty then gdf else clipped)
    | none =>
      match makeValidOp gdf with
      | none => .ok gdf
      | some fixed =>
        match clipOp bounds fixed with
        | none => .ok fixed
        | some clipped => .ok (if clipped.isEmpty then fixed else clipped)

end Clip

namespace Ex

/-!
Concrete inputs used by the witnesses and counterexamples.
-/

/-- The spec scenario base layer: one Polish and one German feature. -/
def plMainC1 : List Poland.Feature :=
  [{ id := "X1", name := "X one", cntr := some "PL" },
   { id := "Y1", name := "Y one", cntr := some "DE" }]

/-- A one-row powiaty dataset with terc `001`, valid non-empty geometry and a
sub-threshold area. -/
def plDsC1 : Poland.PlDataset :=
  { hasTerc := true, hasName := true,
    rows := [{ terc := "001", pname := "Powiat A", geomEmpty := false,
               geomPresent := true, geomValid := true, areaDeg2 := 1 }] }

/-- A base layer whose only (retained, non-Polish) feature already carries the
id the replacement will mint. -/
def plMainC2 : List Poland.Feature :=
  [{ id := "PL_POW_001", name := "Collider", cntr := some "DE" }]

/-- The layer the collision merge silently produces: the same id twice. -/
def plMergedC2 : List Poland.Feature :=
  [{ id := "PL_POW_001", name := "Collider", cntr := some "DE" },
   { id := "PL_POW_001", name := "Powiat A", cntr := some "PL" }]

/-- A 3 square-kilometre part sitting exactly on the Malta whitelist point. -/
def maltaPart : Cull.Part :=
  { area_km2 := 3,
    hitsPt := fun q => decide (q = (((14.3754 : ℚ), (35.9375 : ℚ)))) }

/-- A single-part row owning `maltaPart` under group id `M`. -/
def maltaRow : Cull.Row :=
  { groupVal := "M", rname := "Malta", parts := [maltaPart] }

/-- A 30 square-kilometre part away from every whitelist point. -/
def bigPart : Cull.Part :=
  { area_km2 := 30, hitsPt := fun _ => false }

/-- A 10 square-kilometre part away from every whitelist point. -/
def smallPart : Cull.Part :=
  { area_km2 := 10, hitsPt := fun _ => false }

/-- Two single-part rows with areas 30 and 10. -/
def twoRows : List Cull.Row :=
  [{ groupVal := "a", rname := "ra", parts := [bigPart] },
   { groupVal := "b", rname := "rb", parts := [smallPart] }]

/-- A single child whose centroid two parents will both contain. -/
def overlapChildren : List Hier.Child :=
  [{ shapeID := "X1", cpt := (0, 0) }]

/-- Two overlapping parent regions that both contain every point. -/
def overlapParents : List Hier.Parent :=
  [{ pname := "North", containsPt := fun _ => true },
   { pname := "South", containsPt := fun _ => true }]

/-- Two children at distinct points. -/
def hierChildren : List Hier.Child :=
  [{ shapeID := "X1", cpt := (0, 0) }, { shapeID := "X2", cpt := (5, 5) }]

/-- A parent containing exactly the points with x-coordinate 0. -/
def northParent : Hier.Parent :=
  { pname := "North", containsPt := fun q => q.1 == 0 }

/-- A parent containing exactly the points with x-coordinate 5. -/
def southParent : Hier.Parent :=
  { pname := "South", containsPt := fun q => q.1 == 5 }

/-- A disjoint covering pair of parents. -/
def hierParents : List Hier.Parent :=
  [northParent, southParent]

/-- A feature whose country-code attribute already holds the `-99` sentinel. -/
def sentinelFeat : Final.Feat :=
  { fid := "Z9", cntr := some "-99" }

/-- A feature with no code whose id yields `FR` by the id heuristic. -/
def frFeat : Final.Feat :=
  { fid := "FR_ARR_1", cntr := none }

/-- A merged layer with one German, one east-Russian, one west-Russian and one
Ukrainian feature. -/
def ruMain : List RuUa.RFeat :=
  [{ rid := "DE1", rname := "n", cntr := some "DE", repLon := 10 },
   { rid := "RUE", rname := "n", cntr := some "RU", repLon := 70 },
   { rid := "RUW", rname := "n", cntr := some "RU", repLon := 50 },
   { rid := "UA1", rname := "n", cntr := some "UA", repLon := 30 }]

/-- A Russian ADM2 dataset with one row on each side of the Ural meridian. -/
def ruRowsEx : List RuUa.Adm2Row :=
  [{ shapeID := "w1", shapeName := "West", repLon := 50 },
   { shapeID := "e1", shapeName := "East", repLon := 70 }]

/-- A one-row Ukrainian ADM2 dataset. -/
def uaRowsEx : List RuUa.Adm2Row :=
  [{ shapeID := "u1", shapeName := "Kyiv", repLon := 30 }]

end Ex

theorem list_isEmpty_false_of_ne_nil {α : Type} {l : List α} (h : l ≠ []) :
    l.isEmpty = false := by
  cases l with
  | nil => exact absurd rfl h
  | cons a t => rfl

/-- C1 (amended): for every non-empty base layer and every fetched powiaty
dataset that is non-empty and carries the `terc` and `name` columns, the
Poland merge returns exactly the base layer with every feature whose
country code equals `PL` case-insensitively removed and every feature of the
normalized replacement dataset appended, so the merged length is the sum of
the retained-base length and the replacement length. -/
theorem poland_replacement_merge (main : List Poland.Feature)
    (ds : Poland.PlDataset) (hmain : main ≠ []) (hrows : ds.rows ≠ [])
    (hterc : ds.hasTerc = true) (hname : ds.hasName = true) :
    Poland.apply_poland_replacement main ds =
      Except.ok (Poland.polandBase main ++ Poland.polandProcessed ds) ∧
    (Poland.polandBase main ++ Poland.polandProcessed ds).length =
      (Poland.polandBase main).length + (Poland.polandProcessed ds).length := by
  refine ⟨?_, List.length_append _ _⟩
  have h1 : main.isEmpty = false := list_isEmpty_false_of_ne_nil hmain
  have h2 : ds.rows.isEmpty = false := list_isEmpty_false_of_ne_nil hrows
  simp [Poland.apply_poland_replacement, h1, h2, hterc, hname]

/-- Witness for C1: on the spec scenario (base `X1`/PL and `Y1`/DE,
replacement terc `001`), the merge follows the amended equation and the merged
id sequence is exactly `Y1`, `PL_POW_001`. -/
theorem poland_replacement_merge_witness :
    (Poland.apply_poland_replacement Ex.plMainC1 Ex.plDsC1 =
      Except.ok (Poland.polandBase Ex.plMainC1 ++ Poland.polandProcessed Ex.plDsC1)) ∧
    (Poland.polandBase Ex.plMainC1 ++ Poland.polandProcessed Ex.plDsC1).map
        Poland.Feature.id = ["Y1", "PL_POW_001"] :=
  ⟨(poland_replacement_merge Ex.plMainC1 Ex.plDsC1 (by decide) (by decide)
      rfl rfl).1,
   by decide⟩

/-- Counterexample to C1 as stated: on an empty base layer the function
returns the empty layer unchanged instead of the retained base plus the
replacement (the replacement features are never appended). -/
theorem poland_empty_base_cex :
    Poland.apply_poland_replacement [] Ex.plDsC1 ≠
      Except.ok (Poland.polandBase [] ++ Poland.polandProcessed Ex.plDsC1) := by
  intro h
  rw [show Poland.apply_poland_replacement [] Ex.plDsC1 =
        Except.ok [] from rfl] at h
  injection h with h2
  exact absurd h2 (by decide)

/-- C2: when a retained base feature already carries the id the replacement
mints (`PL_POW_001`), the merge does not fail: it returns `ok` with the layer
containing the duplicated id twice.  The source has no collision check. -/
theorem poland_duplicate_id_silent :
    Poland.apply_poland_replacement Ex.plMainC2 Ex.plDsC1 =
      Except.ok Ex.plMergedC2 ∧
    (Ex.plMergedC2.map Poland.Feature.id).count "PL_POW_001" = 2 := by
  exact ⟨rfl, by decide⟩

/-- C10: `clip_to_europe_bounds` in `map_builder/geo/utils.py` reads
`cfg.MAP_BOUNDS`, which `map_builder.config` does not define, before entering
any `try` block: every call raises `AttributeError`, for every input layer and
every behaviour of the clip and repair collaborators, instead of ever
returning a clipped or original layer. -/
theorem clip_map_bounds_attribute_error
    (clipOp : (ℚ × ℚ × ℚ × ℚ) → List Clip.CFeat → Option (List Clip.CFeat))
    (makeValidOp : List Clip.CFeat → Option (List Clip.CFeat))
    (gdf : List Clip.CFeat) :
    Clip.clip_to_europe_bounds clipOp makeValidOp gdf =
      Except.error
        "AttributeError: module map_builder.config has no attribute MAP_BOUNDS" :=
  rfl

theorem blankToNone_cases (s : String) :
    Final.blankToNone s = none ∨
      ∃ u, Final.blankToNone s = some u ∧ u ≠ "" := by
  by_cases h : s = ""
  · left; simp [Final.blankToNone, h]
  · right; exact ⟨s, by simp [Final.blankToNone, h], h⟩

/-- C4 (amended): after the finalization pass the country code of every feature is
either explicitly null or a non-empty string — never the empty string.  (The
2-letter-uppercase form and the exclusion of `-99` hold only for codes the
pass itself backfills, not for codes already present in the attributes; see
the counterexample.) -/
theorem final_code_never_blank (feats : List Final.Feat)
    (oracle : Final.Feat → List String) (c : Option String)
    (hc : c ∈ Final.finalizeCodes feats oracle) :
    c = none ∨ ∃ s, c = some s ∧ s ≠ "" := by
  rcases List.mem_map.mp hc with ⟨f, _, rfl⟩
  exact blankToNone_cases _

/-- Witness for C4: a feature with no code whose id yields `FR` resolves to
`some "FR"`, which is non-null and non-empty. -/
theorem final_code_never_blank_witness :
    (some "FR" : Option String) = none ∨
      ∃ s, (some "FR" : Option String) = some s ∧ s ≠ "" :=
  final_code_never_blank [Ex.frFeat] (fun _ => []) (some "FR") (by decide)

/-- Counterexample to C4 as stated: a feature whose attribute already holds
the sentinel `-99` leaves the pipeline with `country_code = "-99"`, which is
neither null nor a 2-letter uppercase alphabetic code. -/
theorem final_code_sentinel_cex :
    Final.finalizeCodes [Ex.sentinelFeat] (fun _ => []) = [some "-99"] ∧
    ¬ ((some "-99" : Option String) = none ∨ Final.validCode "-99" = true) := by
  exact ⟨by decide, by decide⟩

/-- C9: with a non-empty base layer and non-empty ADM2 datasets, the hybrid
split returns the non-RU/UA base, plus exactly the base Russian features with
representative-point longitude at or east of the Ural meridian, plus exactly
the ADM2 rows strictly west of it (renamed to the `RU_RAY_` schema), plus the
full Ukrainian replacement; every kept coarse Russian feature lies at or east
of 60°E and every kept ADM2 replacement feature lies strictly west of it. -/
theorem russia_ukraine_split (main : List RuUa.RFeat)
    (ruRows uaRows : List RuUa.Adm2Row)
    (hmain : main ≠ []) (hru : ruRows ≠ []) (hua : uaRows ≠ []) :
    RuUa.apply_russia_ukraine_replacement main ruRows uaRows =
      Except.ok (RuUa.ruUaBase main ++ RuUa.ruEastKept main ++
                 RuUa.ruWestAdm2 ruRows ++ RuUa.uaAdm2Feats uaRows) ∧
    (∀ f ∈ RuUa.ruEastKept main, RuUa.URAL_LONGITUDE ≤ f.repLon) ∧
    (∀ f ∈ RuUa.ruWestAdm2 ruRows, f.repLon < RuUa.URAL_LONGITUDE) := by
  refine ⟨?_, ?_, ?_⟩
  · have h1 : main.isEmpty = false := list_isEmpty_false_of_ne_nil hmain
    have h2 : ruRows.isEmpty = false := list_isEmpty_false_of_ne_nil hru
    have h3 : uaRows.isEmpty = false := list_isEmpty_false_of_ne_nil hua
    simp [RuUa.apply_russia_ukraine_replacement, h1, h2, h3]
  · intro f hf
    have h := (List.mem_filter.mp hf).2
    simpa using h
  · intro f hf
    rcases List.mem_map.mp hf with ⟨r, hr, rfl⟩
    have h := (List.mem_filter.mp hr).2
    simpa using h

/-- Witness for C9: on a four-feature base layer and two-row Russian plus
one-row Ukrainian ADM2 datasets, the split equation and both longitude
properties hold. -/
theorem russia_ukraine_split_witness :
    (RuUa.apply_russia_ukraine_replacement Ex.ruMain Ex.ruRowsEx Ex.uaRowsEx =
      Except.ok (RuUa.ruUaBase Ex.ruMain ++ RuUa.ruEastKept Ex.ruMain ++
                 RuUa.ruWestAdm2 Ex.ruRowsEx ++ RuUa.uaAdm2Feats Ex.uaRowsEx)) ∧
    (∀ f ∈ RuUa.ruEastKept Ex.ruMain, RuUa.URAL_LONGITUDE ≤ f.repLon) ∧
    (∀ f ∈ RuUa.ruWestAdm2 Ex.ruRowsEx, f.repLon < RuUa.URAL_LONGITUDE) :=
  russia_ukraine_split Ex.ruMain Ex.ruRowsEx Ex.uaRowsEx
    (by decide) (by decide) (by decide)

theorem selectLayers_ok (cands : List (String × List Topo.TFeat))
    (h : ∀ nl ∈ cands, nl.1 = "political" →
      Topo.has_valid_bounds (Topo.processLayer nl.2) = true) :
    Topo.selectLayers cands = Except.ok (Topo.keptLayers cands) := by
  induction cands with
  | nil => rfl
  | cons hd tl ih =>
    obtain ⟨n, l⟩ := hd
    have htl : ∀ nl ∈ tl, nl.1 = "political" →
        Topo.has_valid_bounds (Topo.processLayer nl.2) = true :=
      fun nl hnl => h nl (List.mem_cons_of_mem _ hnl)
    by_cases hv : Topo.has_valid_bounds (Topo.processLayer l) = true
    · simp [Topo.selectLayers, hv, ih htl, Topo.keptLayers]
    · have hn : ¬ n = "political" :=
        fun he => hv (h (n, l) (List.mem_cons_self _ _) he)
      have hnb : (n == "political") = false := by
        simpa using hn
      simp [Topo.selectLayers, hv, hnb, ih htl, Topo.keptLayers]

/-- C8: after per-layer processing (reprojection, column pruning, geometry
scrubbing, rounding), `build_topology` dispatches on bounding-box validity by
role: if the processed political layer is invalid the whole build aborts with
an error (no artifact is produced); otherwise the artifact contains exactly
the candidate layers with valid bounds, each non-political invalid layer being
skipped. -/
theorem topology_bounds_dispatch (pol oc la ur ph ri : List Topo.TFeat)
    (sz : Option (List Topo.TFeat)) :
    Topo.build_topology pol oc la ur ph ri sz =
      (if Topo.has_valid_bounds (Topo.processLayer pol) then
        Except.ok (Topo.keptLayers (Topo.candList pol oc la ur ph ri sz))
      else
        Except.error
          "Political layer is empty or invalid; cannot build topology.") := by
  by_cases hv : Topo.has_valid_bounds (Topo.processLayer pol) = true
  · rw [if_pos hv]
    apply selectLayers_ok
    intro nl hnl hp
    rcases sz with _ | z
    · simp [Topo.candList] at hnl
      rcases hnl with h0 | h0 | h0 | h0 | h0 | h0 <;> rw [h0] at hp ⊢ <;>
        first
          | exact hv
          | simp at hp
    · simp [Topo.candList] at hnl
      rcases hnl with h0 | h0 | h0 | h0 | h0 | h0 | h0 <;> rw [h0] at hp ⊢ <;>
        first
          | exact hv
          | simp at hp
  · rw [if_neg hv]
    simp [Topo.build_topology, Topo.candList, Topo.selectLayers, hv]

theorem foldl_max_eq_or_mem (a : ℚ) (as : List ℚ) :
    as.foldl max a = a ∨ as.foldl max a ∈ as := by
  induction as generalizing a with
  | nil => left; rfl
  | cons b bs ih =>
    rcases ih (max a b) with h | h
    · rcases max_choice a b with hm | hm
      · left; rw [List.foldl_cons, h, hm]
      · right; rw [List.foldl_cons, h, hm]; exact List.mem_cons_self _ _
    · right; exact List.mem_cons_of_mem _ h

theorem listMax_mem {l : List ℚ} {m : ℚ} (h : Cull.listMax l = some m) :
    m ∈ l := by
  cases l with
  | nil => simp [Cull.listMax] at h
  | cons a as =>
    have hm : as.foldl max a = m := by
      simpa [Cull.listMax] using h
    rcases foldl_max_eq_or_mem a as with h2 | h2
    · rw [← hm, h2]; exact List.mem_cons_self _ _
    · rw [← hm]; exact List.mem_cons_of_mem _ h2

theorem exists_kept_in_group (rows : List Cull.Row) (t : ℚ) (r : Cull.Row)
    (p : Cull.Part) (h : (r, p) ∈ Cull.explodedPairs rows) :
    ∃ rp, rp ∈ Cull.cullFiltered true rows t ∧
      rp.1.groupVal = r.groupVal := by
  have harea : p.area_km2 ∈ Cull.groupAreas (Cull.explodedPairs rows) r.groupVal := by
    refine List.mem_map.mpr ⟨(r, p), List.mem_filter.mpr ⟨h, ?_⟩, rfl⟩
    simp
  cases hGA : Cull.groupAreas (Cull.explodedPairs rows) r.groupVal with
  | nil => rw [hGA] at harea; exact absurd harea (List.not_mem_nil _)
  | cons a as =>
    have hm : Cull.listMax (Cull.groupAreas (Cull.explodedPairs rows) r.groupVal)
        = some (as.foldl max a) := by rw [hGA]; rfl
    have hmem : as.foldl max a ∈
        Cull.groupAreas (Cull.explodedPairs rows) r.groupVal := by
      rw [hGA]
      rcases foldl_max_eq_or_mem a as with h2 | h2
      · rw [h2]; exact List.mem_cons_self _ _
      · exact List.mem_cons_of_mem _ h2
    rcases List.mem_map.mp hmem with ⟨rp, hrpf, hval⟩
    rcases List.mem_filter.mp hrpf with ⟨hrpe, hrg⟩
    have hg : rp.1.groupVal = r.groupVal := by simpa using hrg
    have hlk : Cull.largestKeep true (Cull.explodedPairs rows) rp = true := by
      simp only [Cull.largestKeep, Bool.true_and, hg, hm, hval]
      simp
    have hkeep : Cull.keepPred true (Cull.explodedPairs rows) t rp = true := by
      simp [Cull.keepPred, hlk]
    exact ⟨rp, List.mem_filter.mpr ⟨hrpe, hkeep⟩, hg⟩

theorem mem_map_groupVal_dissolve (flt : List (Cull.Row × Cull.Part))
    (g : String) (h : g ∈ flt.map (fun rp => rp.1.groupVal)) :
    g ∈ (Cull.dissolveGroups flt).map Cull.Row.groupVal := by
  unfold Cull.dissolveGroups
  rw [List.map_map]
  exact List.mem_map.mpr ⟨g, List.mem_dedup.mpr h, rfl⟩

theorem cull_run_of_kept (hasG : Bool) (rows : List Cull.Row) (t : ℚ)
    (hrows : rows ≠ []) (hflt : Cull.cullFiltered hasG rows t ≠ []) :
    Cull.smart_island_cull hasG rows t =
      (if hasG then Cull.dissolveGroups (Cull.cullFiltered hasG rows t)
       else (Cull.cullFiltered hasG rows t).map
         (fun rp => { rp.1 with parts := [rp.2] })) := by
  have h1 : rows.isEmpty = false := list_isEmpty_false_of_ne_nil hrows
  have hex : (Cull.explodedPairs rows).isEmpty = false := by
    cases hE : Cull.explodedPairs rows with
    | nil =>
      exact absurd (by simp [Cull.cullFiltered, hE]) hflt
    | cons a l => rfl
  have h3 : (Cull.cullFiltered hasG rows t).isEmpty = false :=
    list_isEmpty_false_of_ne_nil hflt
  simp [Cull.smart_island_cull, h1, hex, h3]

/-- C3: for every non-empty input layer whose group column is present and
whose features each explode to at least one part, island culling never erases
a region entirely: every group id occurring in the input also occurs in the
output, for every threshold (the largest part of each group always passes the keep
predicate and survives the dissolve). -/
theorem cull_never_erases_group (rows : List Cull.Row) (t : ℚ)
    (hrows : rows ≠ []) (hparts : ∀ r ∈ rows, r.parts ≠ [])
    (g : String) (hg : g ∈ rows.map Cull.Row.groupVal) :
    g ∈ (Cull.smart_island_cull true rows t).map Cull.Row.groupVal := by
  rcases List.mem_map.mp hg with ⟨r, hr, rfl⟩
  obtain ⟨p, hp⟩ := List.exists_mem_of_ne_nil _ (hparts r hr)
  have hex : (r, p) ∈ Cull.explodedPairs rows :=
    List.mem_flatMap.mpr ⟨r, hr, List.mem_map.mpr ⟨p, hp, rfl⟩⟩
  obtain ⟨rp, hrpf, hgv⟩ := exists_kept_in_group rows t r p hex
  have hflt : Cull.cullFiltered true rows t ≠ [] := List.ne_nil_of_mem hrpf
  rw [cull_run_of_kept true rows t hrows hflt, if_pos rfl]
  exact mem_map_groupVal_dissolve _ _ (List.mem_map.mpr ⟨rp, hrpf, hgv⟩)

/-- Witness for C3: the layer holding only the Malta row keeps group `M` even
at a huge threshold. -/
theorem cull_never_erases_group_witness :
    "M" ∈ (Cull.smart_island_cull true [Ex.maltaRow] 1234).map
      Cull.Row.groupVal :=
  cull_never_erases_group [Ex.maltaRow] 1234 (List.cons_ne_nil _ _)
    (by
      intro r hr
      rw [List.mem_singleton] at hr
      subst hr
      exact List.cons_ne_nil _ _)
    "M" (List.mem_map.mpr ⟨Ex.maltaRow, List.mem_singleton.mpr rfl, rfl⟩)

/-- C6: every exploded part whose geometry intersects one of the whitelist
points survives the keep predicate regardless of its area and of the
threshold, and its geometry reaches the culled output inside the dissolved
feature of its parent group (or as its own row when the group column is
absent). -/
theorem cull_vip_always_kept (hasG : Bool) (rows : List Cull.Row) (t : ℚ)
    (r : Cull.Row) (p : Cull.Part)
    (hmem : (r, p) ∈ Cull.explodedPairs rows)
    (hvip : Cull.vipKeep p = true) :
    (r, p) ∈ Cull.cullFiltered hasG rows t ∧
      ∃ o ∈ Cull.smart_island_cull hasG rows t, p ∈ o.parts := by
  have hkeep : Cull.keepPred hasG (Cull.explodedPairs rows) t (r, p) = true := by
    simp [Cull.keepPred, hvip]
  have hf : (r, p) ∈ Cull.cullFiltered hasG rows t :=
    List.mem_filter.mpr ⟨hmem, hkeep⟩
  refine ⟨hf, ?_⟩
  have hrows : rows ≠ [] := by
    intro h
    rw [h] at hmem
    simp [Cull.explodedPairs] at hmem
  have hflt : Cull.cullFiltered hasG rows t ≠ [] := List.ne_nil_of_mem hf
  rw [cull_run_of_kept hasG rows t hrows hflt]
  cases hasG with
  | true =>
    rw [if_pos rfl]
    have hgmem : r.groupVal ∈
        ((Cull.cullFiltered true rows t).map (fun rp => rp.1.groupVal)).dedup :=
      List.mem_dedup.mpr (List.mem_map.mpr ⟨(r, p), hf, rfl⟩)
    refine ⟨_, List.mem_map.mpr ⟨r.groupVal, hgmem, rfl⟩, ?_⟩
    exact List.mem_map.mpr ⟨(r, p), List.mem_filter.mpr ⟨hf, by simp⟩, rfl⟩
  | false =>
    rw [if_neg (by simp)]
    exact ⟨_, List.mem_map.mpr ⟨(r, p), hf, rfl⟩, List.mem_singleton.mpr rfl⟩

/-- Witness for C6: the 3 square-kilometre Malta part survives a 500
square-kilometre threshold and reaches the output. -/
theorem cull_vip_always_kept_witness :
    (Ex.maltaRow, Ex.maltaPart) ∈ Cull.cullFiltered true [Ex.maltaRow] 500 ∧
      ∃ o ∈ Cull.smart_island_cull true [Ex.maltaRow] 500,
        Ex.maltaPart ∈ o.parts :=
  cull_vip_always_kept true [Ex.maltaRow] 500 Ex.maltaRow Ex.maltaPart
    (show _ ∈ [(Ex.maltaRow, Ex.maltaPart)] from List.mem_singleton.mpr rfl)
    (by simp [Cull.vipKeep, Cull.VIP_POINTS, Ex.maltaPart])

theorem keepPred_mono (hasG : Bool) (ex : List (Cull.Row × Cull.Part))
    (t1 t2 : ℚ) (h : t1 ≤ t2) (rp : Cull.Row × Cull.Part)
    (hk : Cull.keepPred hasG ex t2 rp = true) :
    Cull.keepPred hasG ex t1 rp = true := by
  simp only [Cull.keepPred, Bool.or_eq_true, decide_eq_true_eq] at hk ⊢
  rcases hk with (h1 | h2) | h3
  · exact Or.inl (Or.inl h1)
  · exact Or.inl (Or.inr h2)
  · exact Or.inr (le_trans h h3)

theorem cullFiltered_subset (hasG : Bool) (rows : List Cull.Row)
    (t1 t2 : ℚ) (h : t1 ≤ t2) :
    Cull.cullFiltered hasG rows t2 ⊆ Cull.cullFiltered hasG rows t1 := by
  intro x hx
  rcases List.mem_filter.mp hx with ⟨hxe, hk⟩
  exact List.mem_filter.mpr ⟨hxe, keepPred_mono hasG _ t1 t2 h x hk⟩

theorem dedup_length_le_of_subset {α : Type} [DecidableEq α]
    {l1 l2 : List α} (h : l1 ⊆ l2) : l1.dedup.length ≤ l2.dedup.length := by
  rw [← List.card_toFinset l1, ← List.card_toFinset l2]
  exact Finset.card_le_card
    (fun x hx => List.mem_toFinset.mpr (h (List.mem_toFinset.mp hx)))

/-- C7 (amended): for a fixed input layer whose group column is present and a
fixed whitelist, island culling is monotone in the area threshold: raising the
threshold cannot increase the number of output features.  (When the group
column is absent the keep-original fallback can break this; see the
counterexample.) -/
theorem cull_threshold_monotone (rows : List Cull.Row) (t1 t2 : ℚ)
    (h : t1 ≤ t2) :
    (Cull.smart_island_cull true rows t2).length ≤
      (Cull.smart_island_cull true rows t1).length := by
  by_cases hrows : rows = []
  · subst hrows
    simp [Cull.smart_island_cull]
  by_cases hex : Cull.explodedPairs rows = []
  · have hsame : ∀ t : ℚ, Cull.smart_island_cull true rows t = rows := by
      intro t
      have h1 : rows.isEmpty = false := list_isEmpty_false_of_ne_nil hrows
      have h2 : (Cull.explodedPairs rows).isEmpty = true := by
        rw [hex]; rfl
      simp [Cull.smart_island_cull, h1, h2]
    rw [hsame, hsame]
  · obtain ⟨⟨r, p⟩, hrp⟩ := List.exists_mem_of_ne_nil _ hex
    obtain ⟨rp1, hrp1, _⟩ := exists_kept_in_group rows t1 r p hrp
    obtain ⟨rp2, hrp2, _⟩ := exists_kept_in_group rows t2 r p hrp
    rw [cull_run_of_kept true rows t1 hrows (List.ne_nil_of_mem hrp1),
        cull_run_of_kept true rows t2 hrows (List.ne_nil_of_mem hrp2),
        if_pos rfl, if_pos rfl]
    have hlen : ∀ t : ℚ,
        (Cull.dissolveGroups (Cull.cullFiltered true rows t)).length =
          ((Cull.cullFiltered true rows t).map
            (fun rp => rp.1.groupVal)).dedup.length := by
      intro t
      simp [Cull.dissolveGroups]
    rw [hlen, hlen]
    exact dedup_length_le_of_subset
      (List.map_subset _ (cullFiltered_subset true rows t1 t2 h))

/-- Witness for C7: on the two-row grouped layer, raising the threshold from
20 to 50 does not increase the output feature count. -/
theorem cull_threshold_monotone_witness :
    (Cull.smart_island_cull true Ex.twoRows 50).length ≤
      (Cull.smart_island_cull true Ex.twoRows 20).length :=
  cull_threshold_monotone Ex.twoRows 20 50 (by decide)

/-- Counterexample to C7 as stated: when the group column is absent, the
two-row layer with part areas 30 and 10 keeps one feature at threshold 20 but,
at threshold 50, every part fails the keep predicate and the keep-original
fallback returns both input rows — the kept-feature count increases from 1 to
2 as the threshold rises. -/
theorem cull_monotone_cex :
    ¬ ((Cull.smart_island_cull false Ex.twoRows 50).length ≤
       (Cull.smart_island_cull false Ex.twoRows 20).length) := by
  decide

theorem countChild_cons (k : String) (v : List String)
    (tl : List (String × List String)) (cid : String) :
    Hier.countChild ((k, v) :: tl) cid = v.count cid + Hier.countChild tl cid := by
  simp [Hier.countChild]

theorem countChild_addToGroup (gs : List (String × List String))
    (g cid2 cid : String) :
    Hier.countChild (Hier.addToGroup gs g cid2) cid =
      Hier.countChild gs cid + (if cid2 == cid then 1 else 0) := by
  induction gs with
  | nil =>
    simp [Hier.addToGroup, Hier.countChild, List.count_cons]
  | cons hd tl ih =>
    obtain ⟨k, v⟩ := hd
    cases hkg : (k == g) with
    | false =>
      simp only [Hier.addToGroup, hkg, Bool.false_eq_true, if_false,
        countChild_cons, ih]
      omega
    | true =>
      simp only [Hier.addToGroup, hkg, if_true, countChild_cons,
        List.count_append, List.count_cons, List.count_nil]
      omega

theorem countChild_groupStep (childPfx cid : String)
    (acc : List (String × List String) × List (String × String))
    (row : Hier.Child × Option String) :
    Hier.countChild (Hier.groupStep childPfx acc row).1 cid =
      Hier.countChild acc.1 cid + Hier.rowCount childPfx cid row := by
  rcases row with ⟨c, reg⟩
  cases reg with
  | none => simp [Hier.groupStep, Hier.rowCount]
  | some region =>
    cases hb : Hier.isBlank region with
    | true => simp [Hier.groupStep, Hier.rowCount, hb]
    | false => simp [Hier.groupStep, Hier.rowCount, hb, countChild_addToGroup]

theorem countChild_foldl (childPfx cid : String)
    (rows : List (Hier.Child × Option String)) :
    ∀ acc : List (String × List String) × List (String × String),
      Hier.countChild (rows.foldl (Hier.groupStep childPfx) acc).1 cid =
        Hier.countChild acc.1 cid + Hier.rowsCount childPfx cid rows := by
  induction rows with
  | nil => intro acc; simp [Hier.rowsCount]
  | cons row rest ih =>
    intro acc
    rw [List.foldl_cons, ih, countChild_groupStep]
    simp [Hier.rowsCount]
    omega

theorem rowsCount_append (childPfx cid : String)
    (l1 l2 : List (Hier.Child × Option String)) :
    Hier.rowsCount childPfx cid (l1 ++ l2) =
      Hier.rowsCount childPfx cid l1 + Hier.rowsCount childPfx cid l2 := by
  simp [Hier.rowsCount]

theorem rowsCount_childJoin_ne (childPfx cid : String)
    (parents : List Hier.Parent) (nearest : Hier.Child → Option String)
    (c : Hier.Child) (h : ¬ (childPfx ++ "_RAY_" ++ c.shapeID) = cid) :
    Hier.rowsCount childPfx cid (Hier.childJoin parents nearest c) = 0 := by
  have hb : ((childPfx ++ "_RAY_" ++ c.shapeID) == cid) = false := by
    simpa using h
  unfold Hier.childJoin
  cases hms : (parents.filter (fun pr => pr.containsPt c.cpt)).isEmpty with
  | true =>
    cases hn : nearest c with
    | none => simp [hms, hn, Hier.rowsCount, Hier.rowCount]
    | some region =>
      cases hbk : Hier.isBlank region with
      | true => simp [hms, hn, hbk, Hier.rowsCount, Hier.rowCount]
      | false => simp [hms, hn, hbk, Hier.rowsCount, Hier.rowCount, hb]
  | false =>
    have hone : ∀ pr : Hier.Parent,
        Hier.rowCount childPfx cid (c, some pr.pname) = 0 := by
      intro pr
      cases hbk : Hier.isBlank pr.pname with
      | true => simp [Hier.rowCount, hbk]
      | false => simp [Hier.rowCount, hbk, hb]
    simp only [hms, Bool.false_eq_true, if_false, Hier.rowsCount,
      List.map_map]
    apply List.sum_eq_zero
    intro x hx
    rcases List.mem_map.mp hx with ⟨pr, _, rfl⟩
    exact hone pr

theorem rowsCount_childJoin_self (childPfx : String)
    (parents : List Hier.Parent) (nearest : Hier.Child → Option String)
    (c : Hier.Child) (pr : Hier.Parent)
    (huniq : parents.filter (fun q => q.containsPt c.cpt) = [pr])
    (hname : Hier.isBlank pr.pname = false) :
    Hier.rowsCount childPfx (childPfx ++ "_RAY_" ++ c.shapeID)
      (Hier.childJoin parents nearest c) = 1 := by
  unfold Hier.childJoin
  simp [huniq, Hier.rowsCount, Hier.rowCount, hname]

theorem rowsCount_flatMap_ne (childPfx cid : String)
    (parents : List Hier.Parent) (nearest : Hier.Child → Option String)
    (cs : List Hier.Child)
    (h : ∀ c ∈ cs, ¬ (childPfx ++ "_RAY_" ++ c.shapeID) = cid) :
    Hier.rowsCount childPfx cid
      (cs.flatMap (Hier.childJoin parents nearest)) = 0 := by
  induction cs with
  | nil => simp [Hier.rowsCount]
  | cons c0 rest ih =>
    rw [List.flatMap_cons, rowsCount_append,
      rowsCount_childJoin_ne childPfx cid parents nearest c0
        (h c0 (List.mem_cons_self _ _)),
      ih (fun c hc => h c (List.mem_cons_of_mem _ hc))]

theorem rowsCount_children_one (childPfx : String)
    (parents : List Hier.Parent) (nearest : Hier.Child → Option String)
    (c : Hier.Child) (pr : Hier.Parent)
    (huniq : parents.filter (fun q => q.containsPt c.cpt) = [pr])
    (hname : Hier.isBlank pr.pname = false) :
    ∀ children : List Hier.Child, c ∈ children →
      ((children.map (fun c2 => childPfx ++ "_RAY_" ++ c2.shapeID)).Nodup) →
      Hier.rowsCount childPfx (childPfx ++ "_RAY_" ++ c.shapeID)
        (children.flatMap (Hier.childJoin parents nearest)) = 1 := by
  intro children
  induction children with
  | nil => intro hmem _; exact absurd hmem (List.not_mem_nil _)
  | cons c0 rest ih =>
    intro hmem hnd
    rw [List.map_cons, List.nodup_cons] at hnd
    obtain ⟨hnotin, hndrest⟩ := hnd
    rw [List.flatMap_cons, rowsCount_append]
    by_cases hc0 :
        (childPfx ++ "_RAY_" ++ c0.shapeID) = (childPfx ++ "_RAY_" ++ c.shapeID)
    · have hcrest : c ∉ rest := by
        intro hcr
        exact hnotin (by rw [hc0]; exact List.mem_map.mpr ⟨c, hcr, rfl⟩)
      have hc0c : c0 = c := by
        rcases List.mem_cons.mp hmem with h | h
        · exact h.symm
        · exact absurd h hcrest
      subst hc0c
      rw [rowsCount_childJoin_self childPfx parents nearest c0 pr huniq hname,
        rowsCount_flatMap_ne childPfx _ parents nearest rest ?hne]
      case hne =>
        intro c2 hc2 he
        exact hnotin (List.mem_map.mpr ⟨c2, hc2, he⟩)
    · have hcr : c ∈ rest := by
        rcases List.mem_cons.mp hmem with h | h
        · exact absurd (congrArg
            (fun x => childPfx ++ "_RAY_" ++ x.shapeID) h.symm) hc0
        · exact h
      rw [rowsCount_childJoin_ne childPfx _ parents nearest c0 hc0,
        ih hcr hndrest]

/-- C5 (amended): in the hierarchy grouping for one country, every child whose
representative point lies within exactly one parent polygon, that parent
carrying a non-blank name, appears in the child list of exactly one group (assuming
the minted child ids are pairwise distinct); in particular, when the parent
layer covers the country without overlaps, no child is dropped and no child is
listed under two groups.  (A child inside two overlapping parents is listed
under two groups; see the counterexample.) -/
theorem hierarchy_child_exactly_once (children : List Hier.Child)
    (parents : List Hier.Parent) (nearest : Hier.Child → Option String)
    (childPfx : String) (c : Hier.Child) (pr : Hier.Parent)
    (hmem : c ∈ children)
    (hnd : (children.map (fun c2 => childPfx ++ "_RAY_" ++ c2.shapeID)).Nodup)
    (huniq : parents.filter (fun q => q.containsPt c.cpt) = [pr])
    (hname : Hier.isBlank pr.pname = false) :
    Hier.countChild
      (Hier.build_admin2_groups children parents nearest childPfx).1
      (childPfx ++ "_RAY_" ++ c.shapeID) = 1 := by
  unfold Hier.build_admin2_groups Hier.joinedRows
  rw [countChild_foldl]
  have h1 := rowsCount_children_one childPfx parents nearest c pr huniq hname
    children hmem hnd
  simpa [Hier.countChild] using h1

/-- Witness for C5: two children at distinct points under a disjoint covering
parent pair; child `X1` lands in exactly one group. -/
theorem hierarchy_child_exactly_once_witness :
    Hier.countChild
      (Hier.build_admin2_groups Ex.hierChildren Ex.hierParents
        (fun _ => none) "UA").1 "UA_RAY_X1" = 1 :=
  hierarchy_child_exactly_once Ex.hierChildren Ex.hierParents (fun _ => none)
    "UA" { shapeID := "X1", cpt := (0, 0) } Ex.northParent
    (by decide) (by decide) rfl (by decide)

/-- Counterexample to C5 as stated: a child whose point lies inside two
overlapping parents is appended once per containing parent — it ends up in two
different groups (total count 2, and two distinct group lists contain it),
not exactly one. -/
theorem hierarchy_overlap_cex :
    Hier.countChild
      (Hier.build_admin2_groups Ex.overlapChildren Ex.overlapParents
        (fun _ => none) "UA").1 "UA_RAY_X1" = 2 ∧
    ((Hier.build_admin2_groups Ex.overlapChildren Ex.overlapParents
        (fun _ => none) "UA").1.filter
      (fun kv => kv.2.contains "UA_RAY_X1")).length = 2 := by
  exact ⟨by decide, by decide⟩
